import Mathlib

/-!
Verification of the technician invite/redemption token system and the
field-level encryption layer of the job-ticket/invoicing backend.

Source files embedded here:
  * backend/core/invite_tokens.py  (InviteTokenService)
  * backend/core/encryption.py     (encrypt_field / decrypt_field)
  * backend/models/tech_invite.py  (TechInvite model)
  * backend/models/user.py, backend/models/company.py (records)
  * backend/routes/tech_invites.py (create / redeem / list / cancel routes)

Strings are modelled as `List Char`; the database session is modelled as an
explicit record of row lists, with `db.commit()` semantics made explicit
(a failed commit rolls every staged change back).  External libraries
(python-jose JWT signing, cryptography.fernet) are modelled symbolically at
the interface the repository code uses, with the serialization spelled out
as executable, invertible encoders.
-/

namespace JobTicket

/-- Strings of the embedded program, modelled as lists of characters. -/
abbrev Str := List Char

/-- Coerce a Lean string literal into the model's string type. -/
def str (s : String) : Str := s.data

/-! ## Decimal rendering and parsing

The wire formats below (JWT segments, Fernet tokens) need a decimal
rendering of naturals and a parser that inverts it.  `natDigitsGo` uses
explicit fuel so that it is structurally recursive and evaluates inside
`decide`. -/

/-- The ten decimal digit characters. -/
def digitChars : List Char := ['0', '1', '2', '3', '4', '5', '6', '7', '8', '9']

/-- The decimal digit character for `d % 10`. -/
def digitChar (d : Nat) : Char := digitChars.getD (d % 10) '0'

/-- Most-significant-first decimal digits of `n`, with fuel. -/
def natDigitsGo : Nat → Nat → List Char
  | 0, _ => []
  | fuel + 1, n =>
    if n < 10 then [digitChar n]
    else natDigitsGo fuel (n / 10) ++ [digitChar (n % 10)]

/-- Most-significant-first decimal digits of `n`. -/
def natDigits (n : Nat) : Str := natDigitsGo (n + 1) n

/-- Read a decimal number terminated by `':'`; returns the value and the
rest of the input.  Fails on any non-digit before the terminator. -/
def readNat : Str → Nat → Option (Nat × Str)
  | [], _ => none
  | c :: cs, acc =>
    if c = ':' then some (acc, cs)
    else if c.isDigit then readNat cs (acc * 10 + (c.toNat - 48))
    else none

/-- Length-prefixed encoding of a string: `<decimal length>:<contents>`. -/
def encStr (s : Str) : Str := natDigits s.length ++ ':' :: s

/-- Decode one length-prefixed string, returning it and the rest. -/
def decStr (t : Str) : Option (Str × Str) :=
  match readNat t 0 with
  | none => none
  | some (n, rest) =>
    if n ≤ rest.length then some (rest.take n, rest.drop n) else none

/-! Basic facts about the digit encoders. -/

theorem digitChars_getD_props (m : Nat) (h : m < 10) :
    (digitChars.getD m '0').isDigit = true ∧
      digitChars.getD m '0' ≠ ':' ∧ digitChars.getD m '0' ≠ '.' := by
  interval_cases m <;> refine ⟨by decide, by decide, by decide⟩

theorem digitChar_isDigit (d : Nat) : (digitChar d).isDigit = true :=
  (digitChars_getD_props (d % 10) (Nat.mod_lt d (by decide))).1

theorem digitChar_ne_colon (d : Nat) : digitChar d ≠ ':' :=
  (digitChars_getD_props (d % 10) (Nat.mod_lt d (by decide))).2.1

theorem digitChar_ne_dot (d : Nat) : digitChar d ≠ '.' :=
  (digitChars_getD_props (d % 10) (Nat.mod_lt d (by decide))).2.2

theorem digitChar_toNat (d : Nat) (h : d < 10) : (digitChar d).toNat - 48 = d := by
  interval_cases d <;> decide

theorem natDigitsGo_all_digits {fuel n : Nat} {c : Char}
    (h : c ∈ natDigitsGo fuel n) : c.isDigit = true := by
  induction fuel generalizing n with
  | zero => simp [natDigitsGo] at h
  | succ fuel ih =>
    unfold natDigitsGo at h
    by_cases hn : n < 10
    · simp [hn] at h
      simp [h, digitChar_isDigit]
    · simp [hn] at h
      rcases h with h | h
      · exact ih h
      · simp [h, digitChar_isDigit]

theorem natDigits_all_digits {n : Nat} {c : Char} (h : c ∈ natDigits n) :
    c.isDigit = true := natDigitsGo_all_digits h

theorem isDigit_ne_dot {c : Char} (h : c.isDigit = true) : c ≠ '.' := by
  intro he; subst he; simp [Char.isDigit] at h

/-- Reading the rendered digits of `n` (with anything after) accumulates `n`. -/
theorem readNat_natDigitsGo (fuel : Nat) :
    ∀ n rest acc, n < fuel →
      readNat (natDigitsGo fuel n ++ rest) acc =
        readNat rest (acc * 10 ^ (natDigitsGo fuel n).length + n) := by
  induction fuel with
  | zero => intro n rest acc h; omega
  | succ fuel ih =>
    intro n rest acc h
    unfold natDigitsGo
    by_cases hn : n < 10
    · simp only [if_pos hn, List.cons_append, List.nil_append]
      rw [readNat]
      rw [if_neg (digitChar_ne_colon n), if_pos (digitChar_isDigit n)]
      simp [digitChar_toNat n hn, List.length_cons]
    · have hdiv : n / 10 < fuel := by
        have h10 : 10 ≤ n := Nat.le_of_not_lt hn
        have : n / 10 < n := Nat.div_lt_self (by omega) (by decide)
        omega
      simp only [if_neg hn, List.append_assoc, List.cons_append, List.nil_append]
      rw [ih (n / 10) (digitChar (n % 10) :: rest) acc hdiv]
      rw [readNat]
      rw [if_neg (digitChar_ne_colon (n % 10)), if_pos (digitChar_isDigit (n % 10))]
      have hm : n % 10 < 10 := Nat.mod_lt n (by decide)
      rw [digitChar_toNat (n % 10) hm]
      congr 1
      have hlen : (natDigitsGo fuel (n / 10) ++ [digitChar (n % 10)]).length =
          (natDigitsGo fuel (n / 10)).length + 1 := by simp
      rw [hlen, pow_succ]
      have := Nat.div_add_mod n 10
      ring_nf
      omega

/-- Reading rendered digits followed by `':'` yields exactly `n`. -/
theorem readNat_natDigits (n : Nat) (rest : Str) (acc : Nat) :
    readNat (natDigits n ++ ':' :: rest) acc =
      some (acc * 10 ^ (natDigits n).length + n, rest) := by
  rw [natDigits, readNat_natDigitsGo (n + 1) n (':' :: rest) acc (Nat.lt_succ_self n)]
  rw [readNat, if_pos rfl]

theorem readNat_natDigits_zero (n : Nat) (rest : Str) :
    readNat (natDigits n ++ ':' :: rest) 0 = some (n, rest) := by
  rw [readNat_natDigits]; simp

/-- `natDigits` is injective. -/
theorem natDigits_inj {a b : Nat} (h : natDigits a = natDigits b) : a = b := by
  have ha := readNat_natDigits_zero a []
  rw [h, readNat_natDigits_zero] at ha
  simp at ha
  omega

/-- Decoding a length-prefixed string recovers it together with the rest. -/
theorem decStr_encStr_append (s rest : Str) :
    decStr (encStr s ++ rest) = some (s, rest) := by
  rw [encStr, decStr]
  have : natDigits s.length ++ ':' :: s ++ rest =
      natDigits s.length ++ ':' :: (s ++ rest) := by simp
  rw [this, readNat_natDigits_zero]
  simp [List.take_left, List.drop_left]

/-- `encStr` never produces the empty string. -/
theorem encStr_ne_nil (s : Str) : encStr s ≠ [] := by
  simp [encStr]

/-! ## Invite token service (`backend/core/invite_tokens.py`)

The service signs JWTs with python-jose (`HS256`).  A JWT is modelled as
`<payload segment>.<signature>`: the payload segment is the length-prefixed
serialization of the claims (standing in for base64url-encoded JSON, which
is likewise an invertible rendering into a printable alphabet), and the
signature is an HMAC digest of the payload segment under the shared secret,
rendered in a dot-free alphabet exactly as base64url renders HMAC-SHA256.
Verification recomputes the digest over the received payload segment and
compares, which is how `jose.jws` verifies; the digest function itself is
an executable stand-in for HMAC-SHA256 — the proofs use only that it is a
deterministic, nonempty, dot-free function of (secret, message). -/

/-- Claims of a tech-invite JWT, as built in `generate_invite_token`. -/
structure InvitePayload where
  invite_id : Str
  company_id : Str
  tech_name : Str
  email : Str
  role : Str
  exp : Nat
  iat : Nat
  iss : Str
  jti : Str
  typ : Str
deriving DecidableEq, Repr

/-- The claim fields of the JWT payload, in serialization order; the two
numeric claims (`exp`, `iat`) are rendered as decimal strings. -/
def payloadFields (p : InvitePayload) : List Str :=
  [p.invite_id, p.company_id, p.tech_name, p.email, p.role,
    natDigits p.exp, natDigits p.iat, p.iss, p.jti, p.typ]

/-- Serialize the claims set (the JWT payload segment): the ten claim
fields, each length-prefixed, concatenated. -/
def encodePayload (p : InvitePayload) : Str :=
  (payloadFields p).foldr (fun s acc => encStr s ++ acc) []

/-- Parse `k` consecutive length-prefixed fields. -/
def decodeFields : Nat → Str → Option (List Str × Str)
  | 0, t => some ([], t)
  | k + 1, t =>
    match decStr t with
    | none => none
    | some (s, rest) =>
      match decodeFields k rest with
      | none => none
      | some (l, r) => some (s :: l, r)

/-- Parse a JWT payload segment back into a claims set.  Fails whenever a
field (a required claim) is missing or malformed. -/
def decodePayload (t : Str) : Option InvitePayload :=
  match decodeFields 10 t with
  | some ([invite_id, company_id, tech_name, email, role, expS, iatS, iss, jti, typ], _) =>
    match readNat (expS ++ [':']) 0, readNat (iatS ++ [':']) 0 with
    | some (exp, []), some (iat, []) =>
      some ⟨invite_id, company_id, tech_name, email, role, exp, iat, iss, jti, typ⟩
    | _, _ => none
  | _ => none

/-- Executable stand-in for HMAC-SHA256 over the signing input: a keyed
digest rendered as `'h'` followed by decimal digits (dot-free, nonempty,
deterministic — the only properties verification relies on). -/
def hmacSign (secret msg : Str) : Str :=
  'h' :: natDigits
    (msg.foldl (fun a c => (a * 31 + c.toNat + 7) % 1000003)
      (secret.foldl (fun a c => (a * 131 + c.toNat) % 1000003) 5381))

theorem hmacSign_ne_nil (secret msg : Str) : hmacSign secret msg ≠ [] := by
  simp [hmacSign]

theorem dot_not_mem_hmacSign (secret msg : Str) : '.' ∉ hmacSign secret msg := by
  intro h
  rw [hmacSign] at h
  rcases List.mem_cons.mp h with h | h
  · exact absurd h.symm (by decide)
  · exact isDigit_ne_dot (natDigits_all_digits h) rfl

/-- Scan to the first `'.'`, returning the part before and after it. -/
def takeUntilDot : Str → Option (Str × Str)
  | [] => none
  | c :: cs =>
    if c = '.' then some ([], cs)
    else
      match takeUntilDot cs with
      | none => none
      | some (a, b) => some (c :: a, b)

/-- Split a token at its last `'.'` into (signing input, signature), as
`jose.jws` does with `rsplit('.', 1)`. -/
def rsplitDot (t : Str) : Option (Str × Str) :=
  match takeUntilDot t.reverse with
  | none => none
  | some (a, b) => some (b.reverse, a.reverse)

theorem takeUntilDot_append {xs : Str} (ys : Str) (h : '.' ∉ xs) :
    takeUntilDot (xs ++ '.' :: ys) = some (xs, ys) := by
  induction xs with
  | nil => simp [takeUntilDot]
  | cons c cs ih =>
    have hc : c ≠ '.' := fun he => h (he ▸ List.mem_cons_self c cs)
    have hcs : '.' ∉ cs := fun hm => h (List.mem_cons_of_mem c hm)
    simp only [List.cons_append, takeUntilDot, List.append_eq, if_neg hc, ih hcs]

theorem rsplitDot_append (body : Str) {sig : Str} (h : '.' ∉ sig) :
    rsplitDot (body ++ '.' :: sig) = some (body, sig) := by
  have hrev : (body ++ '.' :: sig).reverse = sig.reverse ++ '.' :: body.reverse := by
    simp
  have hmem : '.' ∉ sig.reverse := by simpa using h
  rw [rsplitDot, hrev, takeUntilDot_append _ hmem]
  simp

/-- `InviteTokenService.generate_invite_token`: build the claims set (role
locked to `"tech"`, issuer and type fixed, expiry `expires_hours` from
`now`) and sign it with the shared application secret.  `now` is the
current UTC time in epoch seconds, `jti` is the random unique token id
drawn by `secrets.token_urlsafe(16)`. -/
def generate_invite_token (secret : Str) (now : Nat) (jti : Str)
    (invite_id company_id tech_name email : Str)
    (expires_hours : Nat := 48) : Str :=
  let payload : InvitePayload :=
    { invite_id := invite_id
      company_id := company_id
      tech_name := tech_name
      email := email
      role := str "tech"
      exp := now + expires_hours * 3600
      iat := now
      iss := str "jobticket-invite-system"
      jti := jti
      typ := str "tech_invite" }
  let body := encodePayload payload
  body ++ '.' :: hmacSign secret body

/-- A FastAPI `HTTPException`, carried as an error value. -/
structure HTTPError where
  status_code : Nat
  detail : Str
deriving DecidableEq, Repr

/-- `InviteTokenService.validate_invite_token`.  python-jose first verifies
the signature (any parse or signature failure is a `JWTError`, surfaced as
401 "Invalid or tampered invite token"), then validates claims: a missing
required claim is again a `JWTError`, and `exp < now` raises
`ExpiredSignatureError`, surfaced as 401 "Invite token has expired".  The
manual type/role/issuer checks then raise `HTTPException(401)` inside the
`try` block, which the code's own `except Exception` handler immediately
converts into a 500 "Token validation failed". -/
def validate_invite_token (secret : Str) (now : Nat) (token : Str) :
    Except HTTPError InvitePayload :=
  match rsplitDot token with
  | none => .error ⟨401, str "Invalid or tampered invite token"⟩
  | some (body, sig) =>
    if sig = hmacSign secret body then
      match decodePayload body with
      | none => .error ⟨401, str "Invalid or tampered invite token"⟩
      | some p =>
        if p.exp < now then .error ⟨401, str "Invite token has expired"⟩
        else if p.typ ≠ str "tech_invite" then
          .error ⟨500, str "Token validation failed"⟩
        else if p.role ≠ str "tech" then
          .error ⟨500, str "Token validation failed"⟩
        else if p.iss ≠ str "jobticket-invite-system" then
          .error ⟨500, str "Token validation failed"⟩
        else .ok p
    else .error ⟨401, str "Invalid or tampered invite token"⟩

/-- The python-jose signature is `jwt.decode(token, key, algorithms=None,
options=None, ...)` with `key` a required positional parameter.
`extract_invite_id` calls `jwt.decode(token, options={"verify_signature":
False})` without it, so every call raises `TypeError` before the token is
even looked at. -/
def jose_decode_missing_key_arg (_token : Str) : Except Unit InvitePayload :=
  .error ()

/-- `InviteTokenService.extract_invite_id`: the `jwt.decode` call (made
without its required `key` argument, see `jose_decode_missing_key_arg`)
raises, the `except Exception` handler catches, and `None` is returned. -/
def extract_invite_id (token : Str) : Option Str :=
  match jose_decode_missing_key_arg token with
  | .ok p => some p.invite_id
  | .error _ => none

/-- `InviteTokenService.generate_signup_link`. -/
def generate_signup_link (token frontend_url : Str) : Str :=
  frontend_url ++ str "/signup-tech?token=" ++ token

/-! Round-trip facts for the token layer. -/

theorem decStr_encStr (s : Str) : decStr (encStr s) = some (s, []) := by
  simpa using decStr_encStr_append s []

theorem decodeFields_encode :
    ∀ (l : List Str) (r : Str),
      decodeFields l.length (l.foldr (fun s acc => encStr s ++ acc) r) = some (l, r) := by
  intro l
  induction l with
  | nil => intro r; rfl
  | cons s tl ih =>
    intro r
    simp only [List.length_cons, List.foldr_cons, decodeFields, decStr_encStr_append,
      ih r]

theorem decodePayload_encodePayload (p : InvitePayload) :
    decodePayload (encodePayload p) = some p := by
  have h := decodeFields_encode (payloadFields p) []
  rw [decodePayload, encodePayload]
  rw [show (10 : Nat) = (payloadFields p).length from rfl, h]
  simp only [payloadFields]
  rw [readNat_natDigits_zero p.exp [], readNat_natDigits_zero p.iat []]

theorem rsplitDot_token (secret body : Str) :
    rsplitDot (body ++ '.' :: hmacSign secret body) =
      some (body, hmacSign secret body) :=
  rsplitDot_append body (dot_not_mem_hmacSign secret body)

/-! ## Field encryption (`backend/core/encryption.py`)

`encrypt_field`/`decrypt_field` delegate to `cryptography.fernet.Fernet`, an
external dependency.  Modelled from the spec: Fernet is authenticated
symmetric encryption — a token embeds a random nonce and the payload and
carries a MAC binding both to the key; `decrypt` verifies the MAC and
fails (`DecryptionError` in the spec's taxonomy; `InvalidToken` in the
library) on a malformed token, a different key, or any modification.  The
MAC is idealized Dolev-Yao style as an injective tag of (key, body) — the
unforgeability that HMAC-SHA256 provides computationally.  The token is a
length-prefixed body followed by the tag, mirroring Fernet's
`version ‖ timestamp ‖ IV ‖ ciphertext ‖ HMAC` layout. -/

/-- Idealized MAC: an injective tag of the key and the authenticated body. -/
def fernetMac (key : Nat) (body : Str) : Str :=
  'm' :: encStr (natDigits key) ++ encStr body

theorem fernetMac_inj {k k' : Nat} {b b' : Str}
    (h : fernetMac k b = fernetMac k' b') : k = k' ∧ b = b' := by
  rw [fernetMac, fernetMac] at h
  have h2 : encStr (natDigits k) ++ encStr b = encStr (natDigits k') ++ encStr b' :=
    List.cons.inj h |>.2
  have h3 := decStr_encStr_append (natDigits k) (encStr b)
  rw [h2, decStr_encStr_append] at h3
  have h4 : natDigits k' = natDigits k ∧ encStr b' = encStr b := by
    simpa using h3
  refine ⟨(natDigits_inj h4.1).symm, ?_⟩
  have h5 := decStr_encStr b
  rw [← h4.2, decStr_encStr] at h5
  have h6 : b' = b := by simpa using h5
  exact h6.symm

theorem fernetMac_ne_nil (key : Nat) (body : Str) : fernetMac key body ≠ [] := by
  simp [fernetMac]

/-- Fernet encryption of plaintext `pt` under `key`, with the random
nonce/timestamp material `nonce`: authenticated body = nonce ‖ payload,
token = length-prefixed body ‖ MAC. -/
def fernetEncrypt (key nonce : Nat) (pt : Str) : Str :=
  let body := natDigits nonce ++ ':' :: encStr pt
  encStr body ++ fernetMac key body

/-- Fernet decryption: parse the token, verify the MAC under `key`, and
recover the payload; `none` is the library's `InvalidToken`. -/
def fernetDecrypt (key : Nat) (token : Str) : Option Str :=
  match decStr token with
  | none => none
  | some (body, mac) =>
    if mac = fernetMac key body then
      match readNat body 0 with
      | none => none
      | some (_nonce, rest) =>
        match decStr rest with
        | none => none
        | some (pt, leftover) => if leftover = [] then some pt else none
    else none

/-- The spec's `DecryptionError`, propagated by `decrypt_field`. -/
inductive DecryptionError
  | invalidToken
deriving DecidableEq, Repr

/-- `encrypt_field`: `None` passes through unchanged; otherwise the Fernet
token of the value. -/
def encrypt_field (key nonce : Nat) : Option Str → Option Str
  | none => none
  | some v => some (fernetEncrypt key nonce v)

/-- `decrypt_field`: `None` passes through unchanged; otherwise Fernet
decryption, whose failure is logged and re-raised (`raise`), i.e.
propagated to the caller. -/
def decrypt_field (key : Nat) : Option Str → Except DecryptionError (Option Str)
  | none => .ok none
  | some v =>
    match fernetDecrypt key v with
    | none => .error .invalidToken
    | some pt => .ok (some pt)

theorem fernetDecrypt_fernetEncrypt (key nonce : Nat) (pt : Str) :
    fernetDecrypt key (fernetEncrypt key nonce pt) = some pt := by
  rw [fernetEncrypt, fernetDecrypt]
  rw [decStr_encStr_append]
  simp [readNat_natDigits_zero nonce (encStr pt), decStr_encStr]

/-! ## Data model (`backend/models/`)

Rows of the three tables the invite flow touches, and the session state.
A query's `.first()` is `List.find?` over rows in insertion order (SQLite
rowid order); `db.commit()` persists the staged changes of the handler,
and a failed commit (or an exception before it) rolls all of them back. -/

/-- `models/company.py` `Company` (the columns the invite flow reads). -/
structure CompanyRec where
  id : Nat
  company_id : Str
  name : Str
  is_active : Bool
deriving DecidableEq, Repr

/-- `models/user.py` `User` (the columns the invite flow touches). -/
structure UserRec where
  id : Nat
  email : Str
  hashed_password : Str
  role : Str
  name : Option Str
  company_id : Option Nat
  is_active : Bool
  force_password_reset : Bool
deriving DecidableEq, Repr

/-- `models/tech_invite.py` `TechInvite`. -/
structure TechInviteRec where
  invite_id : Str
  tech_name : Str
  email : Str
  phone : Option Str
  company_id : Str
  status : Str
  created_at : Nat
  expires_at : Nat
  used_at : Option Nat
  created_by : Nat
deriving DecidableEq, Repr

/-- The persistent state of the three tables. -/
structure DB where
  users : List UserRec
  companies : List CompanyRec
  invites : List TechInviteRec
deriving DecidableEq, Repr

/-- `TechInvite.is_expired`: `datetime.utcnow() > self.expires_at`. -/
def TechInviteRec.is_expired (now : Nat) (i : TechInviteRec) : Bool :=
  decide (i.expires_at < now)

/-- `TechInvite.is_valid`: `self.status == "pending" and not self.is_expired`. -/
def TechInviteRec.is_valid (now : Nat) (i : TechInviteRec) : Bool :=
  decide (i.status = str "pending") && !(i.is_expired now)

/-- `TechInvite.mark_as_used`: status ← accepted, used_at ← now. -/
def TechInviteRec.mark_as_used (now : Nat) (i : TechInviteRec) : TechInviteRec :=
  { i with status := str "accepted", used_at := some now }

/-- `TechInvite.mark_as_expired`. -/
def TechInviteRec.mark_as_expired (i : TechInviteRec) : TechInviteRec :=
  { i with status := str "expired" }

/-- `TechInvite.mark_as_cancelled`. -/
def TechInviteRec.mark_as_cancelled (i : TechInviteRec) : TechInviteRec :=
  { i with status := str "cancelled" }

/-- Replace the first list element satisfying `p` by `f` of it — an ORM
attribute update of the single row fetched by a primary-key query. -/
def updateFirst (p : α → Bool) (f : α → α) : List α → List α
  | [] => []
  | x :: xs => if p x then f x :: xs else x :: updateFirst p f xs

/-- `require_role([UserRole.MANAGER, UserRole.ADMIN])`: the dependency
rejects every other role with 403. -/
def managerOrAdmin (role : Str) : Bool :=
  decide (role = str "manager") || decide (role = str "admin")

/-! ## Routes (`backend/routes/tech_invites.py`)

Each handler is a function of the current time, the session state and the
request, returning the HTTP outcome together with the state left committed.
Randomness (`uuid4`, `token_urlsafe`) and the autoincrement user id enter
as parameters, as does `commitOk`: whether the final `db.commit()` of the
redeem handler succeeds (on failure the handler's `except` branch calls
`db.rollback()`, visible here as the unchanged state; the surfaced error is
the handler's 500 — an `IntegrityError` would surface 409 instead, with
the same rolled-back state). -/

/-- Request body of `POST /tech-invites/` (`TechInviteCreate`). -/
structure TechInviteCreateData where
  tech_name : Str
  email : Str
  phone : Option Str
deriving DecidableEq, Repr

/-- Response of `POST /tech-invites/` (`TechInviteTokenResponse`). -/
structure TechInviteTokenResponse where
  invite_id : Str
  token : Str
  expires_at : Nat
  sms_link : Str
  email_link : Str
deriving DecidableEq, Repr

/-- `create_tech_invite` (`POST /tech-invites/`): reject if a user with the
email exists; fetch the first pending invite for (email, caller's company)
and reject if it is still valid; otherwise insert a fresh pending record
(expiry 48h out) and return a signed token plus signup links.
`curCompanyUuid` is `current_user.company.company_id`. -/
def create_tech_invite (secret frontend_url : Str) (now : Nat)
    (newInviteId jti : Str) (db : DB) (curRole curCompanyUuid : Str)
    (curUserId : Nat) (invite_data : TechInviteCreateData) :
    Except HTTPError TechInviteTokenResponse × DB :=
  if !managerOrAdmin curRole then
    (.error ⟨403, str "Access denied. Required roles: manager, admin"⟩, db)
  else
    match db.users.find? (fun u => decide (u.email = invite_data.email)) with
    | some _ => (.error ⟨409, str "User with this email already exists"⟩, db)
    | none =>
      let existing_invite := db.invites.find? (fun i =>
        decide (i.email = invite_data.email) &&
          decide (i.company_id = curCompanyUuid) &&
          decide (i.status = str "pending"))
      if existing_invite.any (fun i => i.is_valid now) then
        (.error ⟨409, str "Pending invite already exists for this email"⟩, db)
      else
        let tech_invite : TechInviteRec :=
          { invite_id := newInviteId
            tech_name := invite_data.tech_name
            email := invite_data.email
            phone := invite_data.phone
            company_id := curCompanyUuid
            status := str "pending"
            created_at := now
            expires_at := now + 48 * 3600
            used_at := none
            created_by := curUserId }
        let token := generate_invite_token secret now jti newInviteId
          curCompanyUuid invite_data.tech_name invite_data.email
        let link := generate_signup_link token frontend_url
        (.ok ⟨newInviteId, token, tech_invite.expires_at, link, link⟩,
          { db with invites := db.invites ++ [tech_invite] })

/-- `create_user_token` (`core/security.py`): the session JWT issued for
the fresh user, modelled as an opaque total function of its claims. -/
def create_user_token (secret : Str) (u : UserRec) : Str :=
  let body := encStr (natDigits u.id) ++ encStr u.email ++ encStr u.role
  body ++ '.' :: hmacSign secret body

/-- Response of `POST /tech-invites/redeem`. -/
structure TechInviteRedemptionResponse where
  user_id : Nat
  access_token : Str
deriving DecidableEq, Repr

/-- `redeem_invite_token` (`POST /tech-invites/redeem`): validate the JWT;
look the invite up by (invite_id, company_id) from its claims (404 if
absent); reject an invalid record with 410 and the sub-reason; guard
against an existing user with the claimed email (409); resolve the company
(404); then stage the new tech user and `mark_as_used` on the invite and
commit both in one transaction. -/
def redeem_invite_token (secret : Str) (now : Nat) (hashPw : Str → Str)
    (nextUserId : Nat) (commitOk : Bool) (db : DB) (token password : Str) :
    Except HTTPError TechInviteRedemptionResponse × DB :=
  match validate_invite_token secret now token with
  | .error e => (.error e, db)
  | .ok payload =>
    match db.invites.find? (fun i =>
        decide (i.invite_id = payload.invite_id) &&
          decide (i.company_id = payload.company_id)) with
    | none => (.error ⟨404, str "Invite not found"⟩, db)
    | some tech_invite =>
      if !tech_invite.is_valid now then
        let status_msg :=
          if tech_invite.is_expired now then str "expired" else tech_invite.status
        (.error ⟨410, str "Invite is " ++ status_msg⟩, db)
      else
        match db.users.find? (fun u => decide (u.email = payload.email)) with
        | some _ => (.error ⟨409, str "User account already exists"⟩, db)
        | none =>
          match db.companies.find? (fun c =>
              decide (c.company_id = payload.company_id)) with
          | none => (.error ⟨404, str "Company not found"⟩, db)
          | some company =>
            let new_user : UserRec :=
              { id := nextUserId
                email := payload.email
                hashed_password := hashPw password
                role := str "tech"
                name := some payload.tech_name
                company_id := some company.id
                is_active := true
                force_password_reset := false }
            if commitOk then
              (.ok ⟨nextUserId, create_user_token secret new_user⟩,
                { db with
                  users := db.users ++ [new_user]
                  invites := updateFirst
                    (fun i => decide (i.invite_id = payload.invite_id) &&
                      decide (i.company_id = payload.company_id))
                    (TechInviteRec.mark_as_used now) db.invites })
            else
              (.error ⟨500, str "Failed to create account"⟩, db)

/-- `list_tech_invites` (`GET /tech-invites/`): rows of the caller's
company only, optionally filtered by status, paginated, with the lazy
expiry sweep flipping stale pending rows of the returned page to
`expired` before the commit. -/
def list_tech_invites (now : Nat) (db : DB) (curRole curCompanyUuid : Str)
    (skip limit : Nat) (status_filter : Option Str) :
    Except HTTPError (List TechInviteRec) × DB :=
  if !managerOrAdmin curRole then
    (.error ⟨403, str "Access denied. Required roles: manager, admin"⟩, db)
  else
    let inCompany := db.invites.filter (fun i => decide (i.company_id = curCompanyUuid))
    let filtered := match status_filter with
      | none => inCompany
      | some s => inCompany.filter (fun i => decide (i.status = s))
    let page := (filtered.drop skip).take limit
    let stale := fun (i : TechInviteRec) =>
      decide (i.status = str "pending") && i.is_expired now
    let staleIds := (page.filter stale).map (·.invite_id)
    (.ok (page.map (fun i => if stale i then i.mark_as_expired else i)),
      { db with invites := db.invites.map (fun i =>
          if staleIds.contains i.invite_id && stale i then i.mark_as_expired else i) })

/-- `cancel_tech_invite` (`DELETE /tech-invites/{invite_id}`): fetch the
invite by (invite_id, caller's company) — 404 if absent — refuse to cancel
a non-pending invite (400), otherwise mark it cancelled and commit. -/
def cancel_tech_invite (db : DB) (curRole curCompanyUuid : Str)
    (invite_id : Str) : Except HTTPError Unit × DB :=
  if !managerOrAdmin curRole then
    (.error ⟨403, str "Access denied. Required roles: manager, admin"⟩, db)
  else
    match db.invites.find? (fun i =>
        decide (i.invite_id = invite_id) &&
          decide (i.company_id = curCompanyUuid)) with
    | none => (.error ⟨404, str "Invite not found"⟩, db)
    | some tech_invite =>
      if tech_invite.status ≠ str "pending" then
        (.error ⟨400, str "Cannot cancel invite with status: " ++ tech_invite.status⟩, db)
      else
        (.ok (),
          { db with
            invites := updateFirst
              (fun i => decide (i.invite_id = invite_id) &&
                decide (i.company_id = curCompanyUuid))
              TechInviteRec.mark_as_cancelled db.invites })

/-! ## Tampering helper -/

/-- Replace the last character of a string — the one-character tamper the
spec's tamper-detection property quantifies over. -/
def mutateLast (l : Str) (c : Char) : Str := l.dropLast ++ [c]

/-! ## Theorems -/

/-- C5: the field encryption is a round-trip with null passthrough:
`decrypt(encrypt(x)) == x` for every non-null string `x` (under every key
and every draw of the nonce material), and `encrypt(None) == None`,
`decrypt(None) == None`. -/
theorem encrypt_decrypt_roundtrip_null_passthrough (key nonce : Nat) (x : Str) :
    decrypt_field key (encrypt_field key nonce (some x)) = .ok (some x) ∧
      encrypt_field key nonce none = none ∧
      decrypt_field key none = .ok none := by
  refine ⟨?_, rfl, rfl⟩
  rw [encrypt_field, decrypt_field, fernetDecrypt_fernetEncrypt]

/-- C6: on every non-null ciphertext that was produced under a different
key, or whose last character has been tampered with, or that is malformed
(fails structural parsing), `decrypt_field` propagates `DecryptionError`;
and it never turns a non-null input into a null result. -/
theorem decrypt_field_error_propagation (key key' nonce : Nat) (x ct : Str)
    (c' : Char) :
    (key ≠ key' →
      decrypt_field key' (encrypt_field key nonce (some x)) = .error .invalidToken) ∧
    ((some c' : Option Char) ≠ (fernetEncrypt key nonce x).getLast? →
      decrypt_field key (some (mutateLast (fernetEncrypt key nonce x) c')) =
        .error .invalidToken) ∧
    (decStr ct = none → decrypt_field key (some ct) = .error .invalidToken) ∧
    decrypt_field key (some ct) ≠ .ok none := by
  refine ⟨?_, ?_, ?_, ?_⟩
  · intro hk
    rw [encrypt_field, decrypt_field, fernetEncrypt, fernetDecrypt,
      decStr_encStr_append]
    have hne : fernetMac key (natDigits nonce ++ ':' :: encStr x) ≠
        fernetMac key' (natDigits nonce ++ ':' :: encStr x) := by
      intro h
      exact hk (fernetMac_inj h).1
    simp [hne]
  · intro hc
    have hmacne := fernetMac_ne_nil key (natDigits nonce ++ ':' :: encStr x)
    rcases List.eq_nil_or_concat (fernetMac key (natDigits nonce ++ ':' :: encStr x))
      with h0 | ⟨s0, a, hsplit⟩
    · exact absurd h0 hmacne
    · have htok : fernetEncrypt key nonce x =
          (encStr (natDigits nonce ++ ':' :: encStr x) ++ s0) ++ [a] := by
        rw [fernetEncrypt, hsplit]
        simp
      have hlast : (fernetEncrypt key nonce x).getLast? = some a := by
        rw [htok, List.getLast?_concat]
      have hca : c' ≠ a := by
        intro he
        exact hc (by rw [hlast, he])
      have hmut : mutateLast (fernetEncrypt key nonce x) c' =
          encStr (natDigits nonce ++ ':' :: encStr x) ++ (s0 ++ [c']) := by
        rw [mutateLast, htok, List.dropLast_concat]
        simp
      rw [hmut, decrypt_field, fernetDecrypt, decStr_encStr_append]
      have hne : s0 ++ [c'] ≠ fernetMac key (natDigits nonce ++ ':' :: encStr x) := by
        rw [hsplit, List.concat_eq_append]
        intro h
        have := List.append_cancel_left h
        exact hca (List.cons.inj this).1
      simp [hne]
  · intro hm
    rw [decrypt_field, fernetDecrypt, hm]
  · rw [decrypt_field]
    cases hfd : fernetDecrypt key ct <;> simp

/-- C4: validating a token produced by `generate_invite_token` at any time
within its `expires_hours` window succeeds and returns exactly the issued
claims: invite id, company id, tech name and email equal the issue inputs,
the role claim is the technician role `"tech"`, and the type discriminator
and issuer are the fixed `"tech_invite"` / `"jobticket-invite-system"`. -/
theorem validate_generate_roundtrip
    (secret jti invite_id company_id tech_name email : Str)
    (now t hours : Nat) (h : t ≤ now + hours * 3600) :
    validate_invite_token secret t
        (generate_invite_token secret now jti invite_id company_id tech_name email hours) =
      .ok { invite_id := invite_id, company_id := company_id,
            tech_name := tech_name, email := email, role := str "tech",
            exp := now + hours * 3600, iat := now,
            iss := str "jobticket-invite-system", jti := jti,
            typ := str "tech_invite" } := by
  rw [generate_invite_token, validate_invite_token]
  simp only [rsplitDot_token, decodePayload_encodePayload]
  have hx : ¬ (now + hours * 3600 < t) := by omega
  simp [hx]

/-- C3: classification of token failures.  (1) Tamper detection: mutating
the last character of an issued token makes validation fail with the
`TokenInvalidError` outcome (401 "Invalid or tampered invite token"), at
every validation time.  (2) Expiry: validating a well-formed issued token
after its `expires_hours` window fails with the distinct
`TokenExpiredError` outcome (401 "Invite token has expired"). -/
theorem validate_tamper_and_expiry
    (secret jti invite_id company_id tech_name email : Str)
    (now t1 t2 hours : Nat) (c' : Char)
    (hc : (some c' : Option Char) ≠
      (generate_invite_token secret now jti invite_id company_id tech_name email
        hours).getLast?)
    (hexp : now + hours * 3600 < t2) :
    validate_invite_token secret t1
        (mutateLast
          (generate_invite_token secret now jti invite_id company_id tech_name email
            hours) c') =
      .error ⟨401, str "Invalid or tampered invite token"⟩ ∧
    validate_invite_token secret t2
        (generate_invite_token secret now jti invite_id company_id tech_name email
          hours) =
      .error ⟨401, str "Invite token has expired"⟩ := by
  constructor
  · set body := encodePayload
      { invite_id := invite_id, company_id := company_id, tech_name := tech_name,
        email := email, role := str "tech", exp := now + hours * 3600, iat := now,
        iss := str "jobticket-invite-system", jti := jti,
        typ := str "tech_invite" } with hbody
    have htokdef : generate_invite_token secret now jti invite_id company_id
        tech_name email hours = body ++ '.' :: hmacSign secret body := by
      rw [generate_invite_token]
    rcases List.eq_nil_or_concat (hmacSign secret body) with h0 | ⟨s0, a, hsplit⟩
    · exact absurd h0 (hmacSign_ne_nil secret body)
    · rw [List.concat_eq_append] at hsplit
      have htok : generate_invite_token secret now jti invite_id company_id
          tech_name email hours = (body ++ '.' :: s0) ++ [a] := by
        rw [htokdef, hsplit]
        simp
      have hlast : (generate_invite_token secret now jti invite_id company_id
          tech_name email hours).getLast? = some a := by
        rw [htok, List.getLast?_concat]
      have hca : c' ≠ a := by
        intro he
        apply hc
        rw [hlast, he]
      have hdotmem : '.' ∉ s0 := by
        intro hm
        exact dot_not_mem_hmacSign secret body
          (hsplit ▸ List.mem_append_left [a] hm)
      have hmut : mutateLast (generate_invite_token secret now jti invite_id
          company_id tech_name email hours) c' = (body ++ '.' :: s0) ++ [c'] := by
        rw [mutateLast, htok, List.dropLast_concat]
      by_cases hdot : c' = '.'
      · subst hdot
        have hsplit2 : rsplitDot ((body ++ '.' :: s0) ++ ['.']) =
            some (body ++ '.' :: s0, []) := by
          have := rsplitDot_append (body ++ '.' :: s0) (List.not_mem_nil '.')
          simpa using this
        rw [hmut, validate_invite_token, hsplit2]
        have hne : ¬ (([] : Str) = hmacSign secret (body ++ '.' :: s0)) :=
          fun h => (hmacSign_ne_nil secret (body ++ '.' :: s0)) h.symm
        simp [hne]
      · have hnodot : '.' ∉ s0 ++ [c'] := by
          intro hm
          rcases List.mem_append.mp hm with hm | hm
          · exact hdotmem hm
          · have hm2 : '.' = c' := by simpa using hm
            exact hdot hm2.symm
        have hsplit2 : rsplitDot (body ++ '.' :: (s0 ++ [c'])) =
            some (body, s0 ++ [c']) := rsplitDot_append body hnodot
        have hmut2 : mutateLast (generate_invite_token secret now jti invite_id
            company_id tech_name email hours) c' = body ++ '.' :: (s0 ++ [c']) := by
          rw [hmut]
          simp
        have hne : ¬ (s0 ++ [c'] = hmacSign secret body) := by
          rw [hsplit]
          intro h
          exact hca (List.cons.inj (List.append_cancel_left h)).1
        rw [hmut2, validate_invite_token, hsplit2]
        simp [hne]
  · rw [generate_invite_token, validate_invite_token]
    simp only [rsplitDot_token, decodePayload_encodePayload]
    simp [hexp]

/-! ## Concrete instances

Shared concrete material for the closed instances of the theorems above
and below. -/

deriving instance DecidableEq for Except

/-- A concrete signing secret. -/
def exSecret : Str := str "s3cr3t"

/-- A concrete issued invite token (issued at epoch second 1000). -/
def exToken : Str :=
  generate_invite_token exSecret 1000 (str "jti-0") (str "inv-1") (str "comp-1")
    (str "Jane Doe") (str "jane@example.com")

/-- The claims carried by `exToken`. -/
def exPayload : InvitePayload :=
  { invite_id := str "inv-1", company_id := str "comp-1",
    tech_name := str "Jane Doe", email := str "jane@example.com",
    role := str "tech", exp := 1000 + 48 * 3600, iat := 1000,
    iss := str "jobticket-invite-system", jti := str "jti-0",
    typ := str "tech_invite" }

set_option maxRecDepth 100000 in
/-- Closed instance of `validate_generate_roundtrip` (C4). -/
theorem validate_generate_roundtrip_witness :
    validate_invite_token exSecret 1500 exToken = .ok exPayload :=
  validate_generate_roundtrip exSecret (str "jti-0") (str "inv-1") (str "comp-1")
    (str "Jane Doe") (str "jane@example.com") 1000 1500 48 (by decide)

set_option maxRecDepth 100000 in
/-- Closed instance of `validate_tamper_and_expiry` (C3): mutating the last
character of `exToken` to `'Z'` is rejected as tampered, and validating the
intact token after its window is rejected as expired. -/
theorem validate_tamper_and_expiry_witness :
    validate_invite_token exSecret 1500 (mutateLast exToken 'Z') =
      .error ⟨401, str "Invalid or tampered invite token"⟩ ∧
    validate_invite_token exSecret 200000 exToken =
      .error ⟨401, str "Invite token has expired"⟩ :=
  validate_tamper_and_expiry exSecret (str "jti-0") (str "inv-1") (str "comp-1")
    (str "Jane Doe") (str "jane@example.com") 1000 1500 200000 48 'Z'
    (by decide) (by decide)

set_option maxRecDepth 100000 in
/-- Closed instance of `decrypt_field_error_propagation` (C6). -/
theorem decrypt_field_error_propagation_witness :
    decrypt_field 2 (encrypt_field 1 5 (some (str "pii"))) = .error .invalidToken ∧
    decrypt_field 1 (some (mutateLast (fernetEncrypt 1 5 (str "pii")) 'Z')) =
      .error .invalidToken ∧
    decrypt_field 1 (some (str "zz")) = .error .invalidToken ∧
    decrypt_field 1 (some (str "zz")) ≠ .ok none :=
  have h := decrypt_field_error_propagation 1 2 5 (str "pii") (str "zz") 'Z'
  ⟨h.1 (by decide), h.2.1 (by decide), h.2.2.1 (by decide), h.2.2.2⟩

set_option maxRecDepth 100000 in
/-- C9: `extract_invite_id` never extracts anything — its `jwt.decode` call
omits the required `key` argument of python-jose, so it raises `TypeError`
and the `except` handler returns `None` for every input, while the very
same token validates and demonstrably carries the invite id `"inv-1"`
(contradicting both the spec and the function's own docstring). -/
theorem extract_invite_id_returns_none_on_issued_token :
    extract_invite_id exToken = none ∧
    validate_invite_token exSecret 1500 exToken = .ok exPayload ∧
    exPayload.invite_id = str "inv-1" :=
  ⟨rfl, by decide, by decide⟩

/-- C1: atomicity of the redemption commit.  Whatever the inputs, the
committed state either is exactly the initial one (every failure path,
including a failed commit, leaves no trace) or carries both effects at
once: the new technician user row appended and the matching invite marked
accepted via `mark_as_used` — never one without the other. -/
theorem redeem_user_and_invite_atomic (secret : Str) (now : Nat)
    (hashPw : Str → Str) (nextUserId : Nat) (commitOk : Bool) (db : DB)
    (token password : Str) :
    (redeem_invite_token secret now hashPw nextUserId commitOk db token password).2 =
        db ∨
    ∃ (p : InvitePayload) (company : CompanyRec),
      (redeem_invite_token secret now hashPw nextUserId commitOk db token
          password).1 =
        .ok ⟨nextUserId, create_user_token secret
          { id := nextUserId, email := p.email,
            hashed_password := hashPw password, role := str "tech",
            name := some p.tech_name, company_id := some company.id,
            is_active := true, force_password_reset := false }⟩ ∧
      (redeem_invite_token secret now hashPw nextUserId commitOk db token
          password).2 =
        { db with
          users := db.users ++
            [{ id := nextUserId, email := p.email,
               hashed_password := hashPw password, role := str "tech",
               name := some p.tech_name, company_id := some company.id,
               is_active := true, force_password_reset := false }]
          invites := updateFirst
            (fun i => decide (i.invite_id = p.invite_id) &&
              decide (i.company_id = p.company_id))
            (TechInviteRec.mark_as_used now) db.invites } := by
  rw [redeem_invite_token]
  split
  · exact Or.inl rfl
  · split
    · exact Or.inl rfl
    · split
      · exact Or.inl rfl
      · split
        · exact Or.inl rfl
        · split
          · exact Or.inl rfl
          · split
            · exact Or.inr ⟨_, _, rfl, rfl⟩
            · exact Or.inl rfl

/-- C2: ordered validation failures of the redeem flow.  Once the token
itself validates to claims `p`: a missing invite record for
(invite id, company id) fails 404 "Invite not found"; an invite record
that is not valid fails 410 ("GoneError") carrying the computed sub-reason
("expired" whenever past expiry, otherwise the stored status, i.e.
"accepted" for an already used invite or "cancelled"); a pre-existing user
with the claimed email fails 409 "User account already exists"; and every
one of these failures leaves the state — users and invite records —
untouched. -/
theorem redeem_validation_failure_order (secret : Str) (now : Nat)
    (hashPw : Str → Str) (nextUserId : Nat) (commitOk : Bool) (db : DB)
    (token password : Str) (p : InvitePayload)
    (hv : validate_invite_token secret now token = .ok p) :
    (db.invites.find? (fun i => decide (i.invite_id = p.invite_id) &&
        decide (i.company_id = p.company_id)) = none →
      redeem_invite_token secret now hashPw nextUserId commitOk db token password =
        (.error ⟨404, str "Invite not found"⟩, db)) ∧
    (∀ inv, db.invites.find? (fun i => decide (i.invite_id = p.invite_id) &&
        decide (i.company_id = p.company_id)) = some inv →
      inv.is_valid now = false →
      redeem_invite_token secret now hashPw nextUserId commitOk db token password =
        (.error ⟨410, str "Invite is " ++
          (if inv.is_expired now then str "expired" else inv.status)⟩, db)) ∧
    (∀ inv u, db.invites.find? (fun i => decide (i.invite_id = p.invite_id) &&
        decide (i.company_id = p.company_id)) = some inv →
      inv.is_valid now = true →
      db.users.find? (fun x => decide (x.email = p.email)) = some u →
      redeem_invite_token secret now hashPw nextUserId commitOk db token password =
        (.error ⟨409, str "User account already exists"⟩, db)) := by
  refine ⟨?_, ?_, ?_⟩
  · intro hf
    simp [redeem_invite_token, hv, hf]
  · intro inv hf hval
    simp [redeem_invite_token, hv, hf, hval]
  · intro inv u hf hval hu
    simp [redeem_invite_token, hv, hf, hval, hu]

/-- C10: if, after the invite record passes its validity checks and the
email guard, no Company row carries the tenant id from the token's claims,
redemption fails 404 "Company not found" and the state — in particular the
still-pending invite — is left untouched. -/
theorem redeem_company_not_found (secret : Str) (now : Nat)
    (hashPw : Str → Str) (nextUserId : Nat) (commitOk : Bool) (db : DB)
    (token password : Str) (p : InvitePayload) (inv : TechInviteRec)
    (hv : validate_invite_token secret now token = .ok p)
    (hf : db.invites.find? (fun i => decide (i.invite_id = p.invite_id) &&
      decide (i.company_id = p.company_id)) = some inv)
    (hval : inv.is_valid now = true)
    (hu : db.users.find? (fun x => decide (x.email = p.email)) = none)
    (hcomp : db.companies.find? (fun c =>
      decide (c.company_id = p.company_id)) = none) :
    redeem_invite_token secret now hashPw nextUserId commitOk db token password =
      (.error ⟨404, str "Company not found"⟩, db) := by
  simp [redeem_invite_token, hv, hf, hval, hu, hcomp]

/-- C7 (amended): invite creation conflicts.  Creation fails 409 when a
user already exists with the invitee email; it fails 409 when the *first*
pending invite found for (email, caller's company) is still valid; and it
succeeds — appending a fresh pending record with expiry 48h out — exactly
when no user exists and the first matching pending invite, if any, is no
longer valid.  Only that first match is consulted, so a still-valid
pending invite that is not the first match does not block creation. -/
theorem create_invite_conflict_rules (secret frontend_url : Str) (now : Nat)
    (newInviteId jti : Str) (db : DB) (curRole curCompanyUuid : Str)
    (curUserId : Nat) (invite_data : TechInviteCreateData)
    (hrole : managerOrAdmin curRole = true) :
    (∀ u, db.users.find? (fun x => decide (x.email = invite_data.email)) = some u →
      create_tech_invite secret frontend_url now newInviteId jti db curRole
          curCompanyUuid curUserId invite_data =
        (.error ⟨409, str "User with this email already exists"⟩, db)) ∧
    (∀ inv, db.users.find? (fun x => decide (x.email = invite_data.email)) = none →
      db.invites.find? (fun i => decide (i.email = invite_data.email) &&
        decide (i.company_id = curCompanyUuid) &&
        decide (i.status = str "pending")) = some inv →
      inv.is_valid now = true →
      create_tech_invite secret frontend_url now newInviteId jti db curRole
          curCompanyUuid curUserId invite_data =
        (.error ⟨409, str "Pending invite already exists for this email"⟩, db)) ∧
    (db.users.find? (fun x => decide (x.email = invite_data.email)) = none →
      (db.invites.find? (fun i => decide (i.email = invite_data.email) &&
        decide (i.company_id = curCompanyUuid) &&
        decide (i.status = str "pending"))).any (fun i => i.is_valid now) = false →
      (create_tech_invite secret frontend_url now newInviteId jti db curRole
          curCompanyUuid curUserId invite_data).2 =
        { db with invites := db.invites ++
            [{ invite_id := newInviteId, tech_name := invite_data.tech_name,
               email := invite_data.email, phone := invite_data.phone,
               company_id := curCompanyUuid, status := str "pending",
               created_at := now, expires_at := now + 48 * 3600,
               used_at := none, created_by := curUserId }] } ∧
      (create_tech_invite secret frontend_url now newInviteId jti db
        curRole curCompanyUuid curUserId invite_data).1.isOk = true) := by
  refine ⟨?_, ?_, ?_⟩
  · intro u hu
    simp [create_tech_invite, hrole, hu]
  · intro inv hu hf hval
    simp [create_tech_invite, hrole, hu, hf, hval]
  · intro hu hany
    refine ⟨?_, ?_⟩
    · simp [create_tech_invite, hrole, hu, hany]
    · simp [create_tech_invite, hrole, hu, hany, Except.isOk, Except.toBool]

/-- Concrete material for the create-invite counterexample: two pending
invites for the same (email, company) — the first expired, the second
still valid — a state the create route itself produces, since creating a
replacement invite after the first expires does not retire the first
row. -/
def exInvA : TechInviteRec :=
  { invite_id := str "inv-A", tech_name := str "Jane Doe",
    email := str "jane@example.com", phone := none,
    company_id := str "comp-1", status := str "pending", created_at := 0,
    expires_at := 100, used_at := none, created_by := 7 }

/-- The second, still-valid pending invite for the same (email, company). -/
def exInvB : TechInviteRec :=
  { exInvA with invite_id := str "inv-B", expires_at := 999999 }

/-- State holding both pending invites and the company, no users. -/
def exDbTwoPending : DB :=
  { users := [], companies := [⟨1, str "comp-1", str "Acme", true⟩],
    invites := [exInvA, exInvB] }

set_option maxRecDepth 100000 in
/-- C7 counterexample: at time 200000 `exInvB` is a still-valid pending
invite for (jane@example.com, comp-1), yet creating another invite for that
same pair succeeds instead of failing with the 409 conflict, because the
conflict check only consults the first matching pending row (`exInvA`,
expired). -/
theorem create_invite_misses_valid_pending :
    exInvB ∈ exDbTwoPending.invites ∧
    exInvB.status = str "pending" ∧
    exInvB.is_valid 200000 = true ∧
    exInvB.email = str "jane@example.com" ∧
    exInvB.company_id = str "comp-1" ∧
    (create_tech_invite exSecret (str "https://app") 200000 (str "inv-C")
        (str "jti-1") exDbTwoPending (str "manager") (str "comp-1") 7
        ⟨str "Jane Doe", str "jane@example.com", none⟩).1.isOk = true := by
  decide

/-- C8 (amended): tenant scoping of the invite list and cancel operations
applies to every caller the routes admit — admin as well as manager; the
admin role gets no bypass.  Listing only ever returns invites of the
caller's own company; cancelling an invite of another company (or a
nonexistent one) fails 404 with the state unchanged, and any invite the
cancel lookup can reach belongs to the caller's company. -/
theorem invite_list_cancel_tenant_scoped (now : Nat) (db : DB)
    (curRole curCompanyUuid : Str) (skip limit : Nat)
    (status_filter : Option Str) (invite_id : Str)
    (hrole : managerOrAdmin curRole = true) :
    (∀ l, (list_tech_invites now db curRole curCompanyUuid skip limit
        status_filter).1 = .ok l →
      ∀ i ∈ l, i.company_id = curCompanyUuid) ∧
    (db.invites.find? (fun i => decide (i.invite_id = invite_id) &&
        decide (i.company_id = curCompanyUuid)) = none →
      cancel_tech_invite db curRole curCompanyUuid invite_id =
        (.error ⟨404, str "Invite not found"⟩, db)) ∧
    (∀ inv, db.invites.find? (fun i => decide (i.invite_id = invite_id) &&
        decide (i.company_id = curCompanyUuid)) = some inv →
      inv.company_id = curCompanyUuid) := by
  refine ⟨?_, ?_, ?_⟩
  · intro l hl i hi
    simp only [list_tech_invites, hrole, Bool.not_true, Bool.false_eq_true,
      if_false, Except.ok.injEq] at hl
    rw [← hl] at hi
    rcases List.mem_map.mp hi with ⟨j, hj, hij⟩
    have hj2 : j ∈ db.invites.filter (fun i =>
        decide (i.company_id = curCompanyUuid)) := by
      have h3 := List.take_subset _ _ hj
      have h4 := List.drop_subset _ _ h3
      cases status_filter with
      | none => exact h4
      | some s =>
        have h5 : j ∈ (db.invites.filter (fun i =>
            decide (i.company_id = curCompanyUuid))).filter
            (fun i => decide (i.status = s)) := h4
        exact (List.mem_filter.mp h5).1
    have hjc : j.company_id = curCompanyUuid := by
      have := (List.mem_filter.mp hj2).2
      simpa using this
    rw [← hij]
    by_cases hst : (decide (j.status = str "pending") && j.is_expired now) = true
    · simp [hst, TechInviteRec.mark_as_expired, hjc]
    · simp [hst, hjc]
  · intro hf
    simp [cancel_tech_invite, hrole, hf]
  · intro inv hf
    have := List.find?_some hf
    simp only [Bool.and_eq_true, decide_eq_true_eq] at this
    exact this.2

/-- Concrete material for the admin-scoping counterexample: a pending
invite belonging to company T2. -/
def exInvT2 : TechInviteRec :=
  { invite_id := str "inv-2", tech_name := str "Bob",
    email := str "bob@example.com", phone := none, company_id := str "T2",
    status := str "pending", created_at := 0, expires_at := 999999,
    used_at := none, created_by := 9 }

/-- State with companies T1 and T2 and the T2 invite. -/
def exDbOtherTenant : DB :=
  { users := [],
    companies := [⟨1, str "T1", str "Acme", true⟩, ⟨2, str "T2", str "Beta", true⟩],
    invites := [exInvT2] }

set_option maxRecDepth 100000 in
/-- C8 counterexample: an admin whose own company is T1 neither sees the
pending T2 invite in the list nor can cancel it (404) — the admin role
does not bypass tenant scoping in these operations. -/
theorem admin_tenant_bypass_counterexample :
    exInvT2 ∈ exDbOtherTenant.invites ∧
    exInvT2.company_id = str "T2" ∧
    exInvT2.status = str "pending" ∧
    (list_tech_invites 100 exDbOtherTenant (str "admin") (str "T1") 0 100
        none).1 = .ok [] ∧
    cancel_tech_invite exDbOtherTenant (str "admin") (str "T1") (str "inv-2") =
      (.error ⟨404, str "Invite not found"⟩, exDbOtherTenant) := by
  decide

/-! Closed instances of the route theorems with hypotheses. -/

set_option maxRecDepth 100000 in
/-- Closed instance of `redeem_validation_failure_order` (C2): redeeming
`exToken` against an empty store fails 404 and leaves the store empty. -/
theorem redeem_validation_failure_order_witness :
    redeem_invite_token exSecret 1500 id 1 true ⟨[], [], []⟩ exToken (str "pw") =
      (.error ⟨404, str "Invite not found"⟩, ⟨[], [], []⟩) :=
  (redeem_validation_failure_order exSecret 1500 id 1 true ⟨[], [], []⟩ exToken
    (str "pw") exPayload (by decide)).1 (by decide)

/-- The invite record matching `exToken`'s claims, still pending. -/
def exInv1 : TechInviteRec :=
  { invite_id := str "inv-1", tech_name := str "Jane Doe",
    email := str "jane@example.com", phone := none,
    company_id := str "comp-1", status := str "pending", created_at := 1000,
    expires_at := 173800, used_at := none, created_by := 7 }

/-- State holding the pending invite but no Company row. -/
def exDbNoCompany : DB := { users := [], companies := [], invites := [exInv1] }

set_option maxRecDepth 100000 in
/-- Closed instance of `redeem_company_not_found` (C10): the invite is
present and valid, no user exists, but the company row is missing — the
redemption fails 404 "Company not found" with the state untouched. -/
theorem redeem_company_not_found_witness :
    redeem_invite_token exSecret 1500 id 1 true exDbNoCompany exToken (str "pw") =
      (.error ⟨404, str "Company not found"⟩, exDbNoCompany) :=
  redeem_company_not_found exSecret 1500 id 1 true exDbNoCompany exToken
    (str "pw") exPayload exInv1 (by decide) (by decide) (by decide) (by decide)
    (by decide)

/-- State holding only the expired pending invite and the company. -/
def exDbExpiredOnly : DB :=
  { users := [], companies := [⟨1, str "comp-1", str "Acme", true⟩],
    invites := [exInvA] }

set_option maxRecDepth 100000 in
/-- Closed instance of `create_invite_conflict_rules` (C7): when the only
prior invite for the pair is pending but expired, creation succeeds and
appends the fresh pending record. -/
theorem create_invite_conflict_rules_witness :
    (create_tech_invite exSecret (str "https://app") 200000 (str "inv-C")
        (str "jti-1") exDbExpiredOnly (str "manager") (str "comp-1") 7
        ⟨str "Jane Doe", str "jane@example.com", none⟩).2 =
      { exDbExpiredOnly with invites := exDbExpiredOnly.invites ++
          [{ invite_id := str "inv-C", tech_name := str "Jane Doe",
             email := str "jane@example.com", phone := none,
             company_id := str "comp-1", status := str "pending",
             created_at := 200000, expires_at := 200000 + 48 * 3600,
             used_at := none, created_by := 7 }] } ∧
    (create_tech_invite exSecret (str "https://app") 200000
        (str "inv-C") (str "jti-1") exDbExpiredOnly (str "manager")
        (str "comp-1") 7 ⟨str "Jane Doe", str "jane@example.com", none⟩).1.isOk =
      true :=
  (create_invite_conflict_rules exSecret (str "https://app") 200000
    (str "inv-C") (str "jti-1") exDbExpiredOnly (str "manager") (str "comp-1")
    7 ⟨str "Jane Doe", str "jane@example.com", none⟩ (by decide)).2.2
    (by decide) (by decide)

set_option maxRecDepth 100000 in
/-- Closed instance of `invite_list_cancel_tenant_scoped` (C8): a manager
of T1 cancelling the T2 invite gets 404 with the state unchanged. -/
theorem invite_list_cancel_tenant_scoped_witness :
    cancel_tech_invite exDbOtherTenant (str "manager") (str "T1")
        (str "inv-2") =
      (.error ⟨404, str "Invite not found"⟩, exDbOtherTenant) :=
  (invite_list_cancel_tenant_scoped 100 exDbOtherTenant (str "manager")
    (str "T1") 0 100 none (str "inv-2") (by decide)).2.1 (by decide)

end JobTicket
